import Mathlib

/-!
Verification of the Bio312/labfiles annotation pipeline.

This file shallow-embeds the parsing, reconciliation and aggregation logic of
`dssp_batch_summary.py`, `sum_pqr_charges.py`, `sum_pqr_chargesv3.py` and
`label_and_plot_net_charges.py`.  Python strings are modeled as Lean `String`
manipulated through its character list (`String.data`), Python `float` values
as `ℚ` (every numeric literal appearing in these files is decimal, hence
exactly representable), files as lists of line strings, and Python `dict`s as
first-match association lists.
-/

set_option maxRecDepth 20000

namespace LabFiles

/-! ### Python string primitives -/

/-- Python `s.startswith(pre)`. -/
def pyStartsWith (s pre : String) : Bool := pre.data.isPrefixOf s.data

/-- Python `len(s)` (counts characters). -/
def pyLen (s : String) : Nat := s.data.length

/-- Python `s[i]` for an in-range index (all uses below are guarded by a
length check, as in the source). -/
def pyAt (s : String) (i : Nat) : Char := s.data.getD i ' '

/-- Python `s[a:b]`. -/
def pySlice (s : String) (a b : Nat) : String := ⟨(s.data.drop a).take (b - a)⟩

/-- Python `strip()` on a character list: drop whitespace from both ends. -/
def pyStripChars (l : List Char) : List Char :=
  ((l.dropWhile Char.isWhitespace).reverse.dropWhile Char.isWhitespace).reverse

/-- Python `s.strip()`. -/
def pyStrip (s : String) : String := ⟨pyStripChars s.data⟩

/-- Accumulator pass for `pySplit`: splits on whitespace runs, dropping empty
pieces, as Python `s.split()` does. -/
def wordsAux : List Char → List Char → List (List Char)
  | [], acc => if acc = [] then [] else [acc.reverse]
  | c :: r, acc =>
    if c.isWhitespace then
      if acc = [] then wordsAux r [] else acc.reverse :: wordsAux r []
    else wordsAux r (c :: acc)

/-- Python `s.split()` (split on whitespace runs, no empty fields;
whitespace here is space, tab, CR and LF, the characters occurring in the
handled data). -/
def pySplit (s : String) : List String := (wordsAux s.data []).map (⟨·⟩)

/-- Python `s.split(sep)[0]` for `sep = '\t'`: the text before the first tab. -/
def beforeFirstTab (s : String) : String := ⟨s.data.takeWhile (fun c => c ≠ '\t')⟩

/-- Python `s.split('|')`: split on every pipe, keeping empty fields. -/
def splitPipe : List Char → List (List Char)
  | [] => [[]]
  | c :: r =>
    let ps := splitPipe r
    if c = '|' then [] :: ps
    else
      match ps with
      | [] => [[c]]
      | h :: t => (c :: h) :: t

/-- Does `sub` occur as a contiguous substring of `s` (Python `sub in s`)? -/
def subInList (sub : List Char) : List Char → Bool
  | [] => sub.isEmpty
  | c :: r => sub.isPrefixOf (c :: r) || subInList sub r

/-- Python `sub in s` for strings. -/
def pyContains (s sub : String) : Bool := subInList sub.data s.data

/-! ### Python float() on decimal literals -/

/-- Longest digit prefix of a character list, with the rest. -/
def takeDigits : List Char → List Char × List Char
  | [] => ([], [])
  | c :: r =>
    if c.isDigit then
      let p := takeDigits r
      (c :: p.1, p.2)
    else ([], c :: r)

/-- Optional leading sign: returns (isNegative, rest). -/
def parseSign (l : List Char) : Bool × List Char :=
  match l with
  | [] => (false, [])
  | c :: r => if c = '+' then (false, r) else if c = '-' then (true, r) else (false, c :: r)

/-- Value of a digit string read in base 10. -/
def digitsVal (l : List Char) : Nat := l.foldl (fun a c => 10 * a + (c.toNat - 48)) 0

/-- Grammar of Python `float()` on an already-stripped character list:
optional sign, digits with optional fractional part, optional exponent. -/
def pyFloatChars? (l : List Char) : Option ℚ :=
  let s1 := parseSign l
  let ip := takeDigits s1.2
  let fr : List Char × List Char :=
    match ip.2 with
    | '.' :: r => takeDigits r
    | r => ([], r)
  if ip.1 = [] ∧ fr.1 = [] then none
  else
    let m : ℚ := (digitsVal ip.1 : ℚ) + (digitsVal fr.1 : ℚ) / (10 : ℚ) ^ fr.1.length
    let v : Option ℚ :=
      match fr.2 with
      | [] => some m
      | c :: r =>
        if c = 'e' ∨ c = 'E' then
          let s2 := parseSign r
          let ed := takeDigits s2.2
          if ed.1 = [] ∨ ed.2 ≠ [] then none
          else some (if s2.1 then m / (10 : ℚ) ^ digitsVal ed.1 else m * (10 : ℚ) ^ digitsVal ed.1)
        else none
    v.map (fun x => if s1.1 then -x else x)

/-- Python `float(s)` on decimal literals, as an exact rational: the input
is stripped of surrounding whitespace first, as `float` does.  (The special
forms `inf`/`nan` and digit-group underscores, which never occur in the
data handled here, are not modeled.)  Returns `none` where Python raises
`ValueError`. -/
def pyFloat? (s : String) : Option ℚ := pyFloatChars? (pyStripChars s.data)

/-! ### dssp_batch_summary.py : parse_dssp_counts -/

/-- `HELIX = set(['H','G','I'])`. -/
def HELIX : List Char := ['H', 'G', 'I']

/-- `SHEET = set(['E','B'])`. -/
def SHEET : List Char := ['E', 'B']

/-- Loop state of `parse_dssp_counts`. -/
structure DsspState where
  in_table : Bool
  n_total : Nat
  n_helix : Nat
  n_sheet : Nat
  n_coil : Nat
  asas : List ℚ
deriving DecidableEq, Repr

/-- The exposure value a data line contributes: `float(line[34:38].strip())`,
with the empty field and any `ValueError` both coerced to `0.0`. -/
def dsspAsa (line : String) : ℚ :=
  if pyStrip (pySlice line 34 38) = "" then 0
  else (pyFloat? (pyStrip (pySlice line 34 38))).getD 0

/-- One iteration of the line loop in `parse_dssp_counts`.  `line[16].strip()`
followed by set membership is modeled by raw-character membership: the helix
and sheet sets contain no whitespace character, so a whitespace structural
code lands in the coil bucket either way. -/
def dsspStep (st : DsspState) (line : String) : DsspState :=
  if pyStartsWith line "  #  RESIDUE" then { st with in_table := true }
  else if !st.in_table then st
  else if pyLen line < 50 then st
  else
    let ss := pyAt line 16
    let asa : ℚ := dsspAsa line
    let st1 := { st with n_total := st.n_total + 1 }
    let st2 :=
      if ss ∈ HELIX then { st1 with n_helix := st1.n_helix + 1 }
      else if ss ∈ SHEET then { st1 with n_sheet := st1.n_sheet + 1 }
      else { st1 with n_coil := st1.n_coil + 1 }
    { st2 with asas := st2.asas ++ [asa] }

/-- Initial loop state. -/
def initDsspState : DsspState :=
  { in_table := false, n_total := 0, n_helix := 0, n_sheet := 0, n_coil := 0, asas := [] }

/-- The whole line loop of `parse_dssp_counts` over a file's lines. -/
def dsspFold (lines : List String) : DsspState := lines.foldl dsspStep initDsspState

/-- Result record of `parse_dssp_counts`. -/
structure DsspMetrics where
  n_total : Nat
  n_helix : Nat
  n_sheet : Nat
  n_coil : Nat
  frac_helix : ℚ
  frac_sheet : ℚ
  frac_coil : ℚ
  mean_ASA : ℚ
deriving DecidableEq, Repr

/-- `parse_dssp_counts`: raises (here: returns `Except.error`) when no
residue row was parsed, otherwise returns the summary record. -/
def parse_dssp_counts (lines : List String) : Except String DsspMetrics :=
  if (dsspFold lines).n_total = 0 then Except.error "No residues parsed"
  else Except.ok
    { n_total := (dsspFold lines).n_total
      n_helix := (dsspFold lines).n_helix
      n_sheet := (dsspFold lines).n_sheet
      n_coil := (dsspFold lines).n_coil
      frac_helix := ((dsspFold lines).n_helix : ℚ) / ((dsspFold lines).n_total : ℚ)
      frac_sheet := ((dsspFold lines).n_sheet : ℚ) / ((dsspFold lines).n_total : ℚ)
      frac_coil := ((dsspFold lines).n_coil : ℚ) / ((dsspFold lines).n_total : ℚ)
      mean_ASA := if (dsspFold lines).asas = [] then 0
                  else (dsspFold lines).asas.sum / ((dsspFold lines).asas.length : ℚ) }

/-- Example secondary-structure table for witnesses: header sentinel plus one
50-character data row with structural code `H` at offset 16 and exposure
`113` in bytes 34–38. -/
def exDsspLines : List String :=
  ["  #  RESIDUE AA STRUCTURE BP1 BP2  ACC",
   "    1    1 A M  H  X 0   0    0    113  ,  -0.1  1"]

/-- The metrics record `parse_dssp_counts` produces on `exDsspLines`. -/
def exMetrics : DsspMetrics :=
  { n_total := 1, n_helix := 1, n_sheet := 0, n_coil := 0,
    frac_helix := 1, frac_sheet := 0, frac_coil := 0, mean_ASA := 113 }

/-- The summary records built by `main` of dssp_batch_summary.py: one per
entity whose parse succeeded; parse failures are skipped with a diagnostic
(`log` then `continue`), so no record is appended for them. -/
def dsspRecords (files : List (String × List String)) : List (String × DsspMetrics) :=
  files.filterMap (fun f =>
    match parse_dssp_counts f.2 with
    | Except.ok m => some (f.1, m)
    | Except.error _ => none)

/-! ### sum_pqr_chargesv3.py and sum_pqr_charges.py -/

/-- `is_pqr_line` from sum_pqr_chargesv3.py. -/
def is_pqr_line (s : String) : Bool := pyStartsWith s "ATOM" || pyStartsWith s "HETATM"

/-- The token `parts[-2]` that the tolerant parser reads as the charge. -/
def chargeTok (line : String) : String :=
  (pySplit line).getD ((pySplit line).length - 2) ""

/-- One iteration of the loop in `sum_charge_for_file`; file lines arrive
with their trailing newline already removed, as `iter_pqr_lines` yields
them. -/
def chargeStep (acc : Nat × ℚ) (line : String) : Nat × ℚ :=
  if !is_pqr_line line then acc
  else if (pySplit line).length < 8 then acc
  else
    match pyFloat? (chargeTok line) with
    | none => acc
    | some charge => (acc.1 + 1, acc.2 + charge)

/-- `sum_charge_for_file` from sum_pqr_chargesv3.py: returns
`(atom_count, net_charge)`. -/
def sum_charge_for_file (lines : List String) : Nat × ℚ :=
  lines.foldl chargeStep (0, 0)

/-- The per-file output rows written by `main` of sum_pqr_chargesv3.py:
`writer.writerow` runs once for every input file (the numeric net charge is
kept unformatted here). -/
def v3Rows (files : List (String × List String)) : List (String × ℚ) :=
  files.map (fun f => (f.1, (sum_charge_for_file f.2).2))

/-- Per-line accumulation in the legacy sum_pqr_charges.py main loop:
charge read at fixed token index 9 when at least 10 tokens are present;
unparsable charges are skipped. -/
def legacyLineAdd (total : ℚ) (line : String) : ℚ :=
  if pyStartsWith line "ATOM" || pyStartsWith line "HETATM" then
    if 10 ≤ (pySplit line).length then
      match pyFloat? ((pySplit line).getD 9 "") with
      | some c => total + c
      | none => total
    else total
  else total

/-- Net charge of one file under the legacy fixed-column parser. -/
def legacyFileCharge (lines : List String) : ℚ := lines.foldl legacyLineAdd 0

/-- The `<file>\tNetCharge=<value>` rows the legacy script writes, one per
input file (numeric value kept unformatted here). -/
def legacyRows (files : List (String × List String)) : List (String × ℚ) :=
  files.map (fun f => (f.1, legacyFileCharge f.2))

/-- The condition under which `sum_charge_for_file` counts a line: record
prefix, at least 8 whitespace tokens, parseable second-to-last token. -/
def v3CountedLine (l : String) : Bool :=
  is_pqr_line l && decide (8 ≤ (pySplit l).length) && (pyFloat? (chargeTok l)).isSome

/-- Counting rule claimed in C5 (record prefix and parseable charge token,
with no requirement on the number of tokens), used to compare against the
code's behaviour. -/
def prefixParseableCount (lines : List String) : Nat :=
  (lines.filter (fun l => is_pqr_line l && (pyFloat? (chargeTok l)).isSome)).length

/-- Legacy-layout charge line (11 whitespace tokens, chain id present):
the charge `-0.415` is token index 9 (the 10th token). -/
def exLegacyLine : String :=
  "ATOM      1  N   MET A   1      27.340  24.430   2.614 -0.415 1.8750"

/-- Tolerant-layout charge line (10 tokens, no chain id): the charge
`-0.415` is the second-to-last token. -/
def exTolerantLine : String :=
  "ATOM      1  N   MET     1      27.340  24.430   2.614 -0.415 1.8750"

/-- A record-prefixed line with fewer than 8 tokens whose second-to-last
token is numeric: the claimed counting rule of C5 counts it, the code does
not. -/
def exShortChargeLine : String := "ATOM 1.0 2.0"

/-- A record-prefixed line with 10 tokens whose second-to-last token is not
numeric. -/
def exBadChargeLine : String := "ATOM x1 n mt a b c d qq rr"

/-- A 50-character non-sentinel table line whose exposure field (bytes
34–38) is not numeric. -/
def exBadAsaLine : String :=
  "    2    2 A R  H  X 0   0    0    xx.x  ,  -0.1  "

/-- An arbitrary mid-table parser state. -/
def exDsspState : DsspState :=
  { in_table := true, n_total := 5, n_helix := 2, n_sheet := 1, n_coil := 2, asas := [7] }

/-- The header sentinel line alone. -/
def exHdrLine : String := "  #  RESIDUE AA STRUCTURE BP1 BP2  ACC"

/-- A 38-character data line: long enough to contain the structural code at
offset 16 and the full exposure field at bytes 34–38, yet shorter than the
code's 50-character threshold. -/
def exLen38Line : String := "    3    3 A K  H  X 0   0    0   79.0"

/-! ### Entity resolver (dssp_batch_summary.py) -/

/-- `os.path.basename`: the part of a path after the last slash. -/
def basename (p : String) : String :=
  ⟨(p.data.reverse.takeWhile (fun c => c ≠ '/')).reverse⟩

/-- The loop of `prefer_alphaFold`: first path whose basename contains the
marker `__AF-`, if any. -/
def findAF : List String → Option String
  | [] => none
  | p :: r => if pyContains (basename p) "__AF-" then some p else findAF r

/-- `prefer_alphaFold`: the first AlphaFold-marked path if one exists, else
the first path (`none` only on the empty list, where Python would raise
`IndexError`). -/
def prefer_alphaFold (paths : List String) : Option String :=
  match findAF paths with
  | some p => some p
  | none => paths.head?

/-- Candidate group for the resolver witness: one marked file among
unmarked ones, not in first position. -/
def exGroup : List String :=
  ["dir/NP_1__Swiss.pdb", "NP_1__AF-model.pdb", "NP_1__other.pdb"]

/-! ### Label joiner -/

/-- Python `d.get(k, default)` over a first-match association list. -/
def dictGet (d : List (String × String)) (k dflt : String) : String :=
  (d.lookup k).getD dflt

/-- The two-hop join of dssp_batch_summary.py `main`:
`abbr = ref2abbr.get(refseq, 'unknown'); status = abbr2status.get(abbr, 'unknown')`. -/
def joinStatus (ref2abbr abbr2status : List (String × String)) (refseq : String) : String :=
  dictGet abbr2status (dictGet ref2abbr refseq "unknown") "unknown"

/-- The join of label_and_plot_net_charges.py `main`: a missing first hop
produces a missing value (pandas `NaN`), which the second `map` propagates
and `fillna("unknown")` replaces. -/
def resolveStatus (ref2abbr abbr2status : List (String × String)) (key : String) : String :=
  match ref2abbr.lookup key with
  | none => "unknown"
  | some a => (abbr2status.lookup a).getD "unknown"

/-- Mapping table for the joiner witness. -/
def exRef2Abbr : List (String × String) := [("NP_9", "Ggo")]

/-- Label table for the joiner witness (no entry for abbreviation `Ggo`). -/
def exAbbr2Status : List (String × String) := [("Hsa", "terrestrial")]

/-! ### Mapping-file loader -/

/-- `dict.setdefault(k, v)` on a first-match association list: insert only
when the key is absent. -/
def setdefault (d : List (String × String)) (k v : String) : List (String × String) :=
  match d.lookup k with
  | some _ => d
  | none => d ++ [(k, v)]

/-- One line of the mapping file, as read by `load_refseq_to_abbr` of
dssp_batch_summary.py and `build_refseq_to_abbr` of
label_and_plot_net_charges.py (their loops are identical): strip, skip
blanks and `#` comments, take the first tab-delimited column, split it on
pipes, and when it has at least two fields yield `(refseq, abbr)` from
fields 1 and 0. -/
def parseMapLine (line : String) : Option (String × String) :=
  if pyStrip line = "" then none
  else if pyStartsWith (pyStrip line) "#" then none
  else
    if 2 ≤ (splitPipe (beforeFirstTab (pyStrip line)).data).length then
      some (⟨(splitPipe (beforeFirstTab (pyStrip line)).data).getD 1 []⟩,
            ⟨(splitPipe (beforeFirstTab (pyStrip line)).data).getD 0 []⟩)
    else none

/-- `load_refseq_to_abbr`: fold the per-line parse over the file with
`setdefault`, starting from the empty dict. -/
def load_refseq_to_abbr (lines : List String) : List (String × String) :=
  lines.foldl (fun d line =>
    match parseMapLine line with
    | some p => setdefault d p.1 p.2
    | none => d) []

/-! ### Charge-table serialization (sum_pqr_charges.py writer,
label_and_plot_net_charges.py reader) -/

/-- Decimal digit characters. -/
def digitChar : Nat → Char
  | 0 => '0'
  | 1 => '1'
  | 2 => '2'
  | 3 => '3'
  | 4 => '4'
  | 5 => '5'
  | 6 => '6'
  | 7 => '7'
  | 8 => '8'
  | _ => '9'

/-- Base-10 digit expansion (most significant first), fuel-driven. -/
def natDigitsAux : Nat → Nat → List Char
  | 0, _ => []
  | fuel + 1, n => if n = 0 then [] else natDigitsAux fuel (n / 10) ++ [digitChar (n % 10)]

/-- Base-10 digit string of a natural number. -/
def natDigits (n : Nat) : List Char :=
  if n = 0 then ['0'] else natDigitsAux (n + 1) n

/-- A number below 1000 as exactly three digits, zero-padded. -/
def pad3 (m : Nat) : List Char :=
  [digitChar (m / 100 % 10), digitChar (m / 10 % 10), digitChar (m % 10)]

/-- Model of Python `"{:.3f}".format(x)` over the exact rationals of this
embedding: sign, integer digits, decimal point, exactly three fractional
digits, rounding to nearest.  (Python rounds the underlying binary double
to even; only the shape of the output matters for the properties proved
here.) -/
def fmt3 (q : ℚ) : String :=
  ⟨(if round (q * 1000) < 0 then ['-'] else [])
    ++ natDigits ((round (q * 1000)).natAbs / 1000)
    ++ '.' :: pad3 ((round (q * 1000)).natAbs % 1000)⟩

/-- The lines `f"{basename}\tNetCharge={total:.3f}"` the legacy script
writes (one per row; the trailing newline separates lines and is not part
of the line). -/
def writeChargesTable (rows : List (String × ℚ)) : List String :=
  rows.map (fun r => r.1 ++ "\tNetCharge=" ++ fmt3 r.2)

/-- The whole legacy writer: one formatted line per input file. -/
def legacyMainLines (files : List (String × List String)) : List String :=
  writeChargesTable (legacyRows files)

/-- Python `line.split("\t", 1)` destructured into two parts; `none` models
the `ValueError` of unpacking when the line has no tab. -/
def splitTab1 (s : String) : Option (String × String) :=
  if s.data.any (fun c => c = '\t') then
    some (⟨s.data.takeWhile (fun c => c ≠ '\t')⟩,
          ⟨(s.data.dropWhile (fun c => c ≠ '\t')).drop 1⟩)
  else none

/-- Python `ztok.split("=", 1)[1]`: everything after the first `=` (all
call sites are guarded by a `startswith` check that guarantees one). -/
def afterEq (s : String) : String :=
  ⟨(s.data.dropWhile (fun c => c ≠ '=')).drop 1⟩

/-- One line of `read_charges_table` from label_and_plot_net_charges.py:
strip, skip blank lines, split at the first tab (no tab: skip), require the
`NetCharge=` prefix, parse the value (failure: skip). -/
def parseChargesLine (line : String) : Option (String × ℚ) :=
  if pyStrip line = "" then none
  else
    match splitTab1 (pyStrip line) with
    | none => none
    | some (fname, ztok) =>
      if !pyStartsWith ztok "NetCharge=" then none
      else
        match pyFloat? (afterEq ztok) with
        | none => none
        | some z => some (fname, z)

/-- `read_charges_table`: all successfully parsed `(File, NetCharge)`
rows. -/
def read_charges_table (lines : List String) : List (String × ℚ) :=
  lines.filterMap parseChargesLine

/-- The characters before the first occurrence of `sub`. -/
def beforeSub (sub : List Char) : List Char → List Char
  | [] => []
  | c :: r => if sub.isPrefixOf (c :: r) then [] else c :: beforeSub sub r

/-- The entity accession: `fname.split("__")[0]`. -/
def entityKey (s : String) : String := ⟨beforeSub ['_', '_'] s.data⟩

/-- Well-formedness of a filename as produced by the pipeline (basenames
of on-disk `.pqr` files): non-empty, not starting with whitespace, and free
of tab and line-break characters, so that it survives the line-oriented
tab-separated format unchanged. -/
def goodName (f : String) : Bool :=
  !f.data.isEmpty &&
  !(f.data.headD ' ').isWhitespace &&
  f.data.all (fun c => !(c = '\t') && !(c = '\n') && !(c = '\r'))

/-- Rows for the round-trip witness. -/
def exChargeRows : List (String × ℚ) :=
  [("NP_1__AF-model.pqr", -415 / 1000), ("NP_2__Swiss.pqr", 12)]

end LabFiles

namespace LabFiles

/-- Decidable equality of parser results, used to evaluate witnesses. -/
instance : DecidableEq (Except String DsspMetrics) := fun a b =>
  match a, b with
  | .ok x, .ok y => if h : x = y then isTrue (by simp [h]) else isFalse (by simp [h])
  | .error x, .error y => if h : x = y then isTrue (by simp [h]) else isFalse (by simp [h])
  | .ok _, .error _ => isFalse (by simp)
  | .error _, .ok _ => isFalse (by simp)

/-! ### Theorems -/

/-- Each counted row is placed in exactly one bucket, so the step function
preserves the partition `n_helix + n_sheet + n_coil = n_total`. -/
theorem dsspStep_partition (st : DsspState) (line : String)
    (h : st.n_helix + st.n_sheet + st.n_coil = st.n_total) :
    (dsspStep st line).n_helix + (dsspStep st line).n_sheet + (dsspStep st line).n_coil
      = (dsspStep st line).n_total := by
  simp only [dsspStep]
  split_ifs <;> (try simp) <;> omega

/-- The partition invariant holds after folding any list of lines. -/
theorem dsspFold_partition (lines : List String) :
    ∀ st : DsspState, st.n_helix + st.n_sheet + st.n_coil = st.n_total →
      (lines.foldl dsspStep st).n_helix + (lines.foldl dsspStep st).n_sheet
          + (lines.foldl dsspStep st).n_coil
        = (lines.foldl dsspStep st).n_total := by
  induction lines with
  | nil => intro st h; simpa using h
  | cons l ls ih =>
    intro st h
    simpa using ih (dsspStep st l) (dsspStep_partition st l h)

/-- C1: every record returned by the secondary-structure per-file parser
satisfies `n_helix + n_sheet + n_coil = n_total`, and the three fractions sum
to 1 within tolerance `1e-9` (in this exact-rational embedding the sum is
exactly 1). -/
theorem claim_C1 (lines : List String) (m : DsspMetrics)
    (h : parse_dssp_counts lines = Except.ok m) :
    m.n_helix + m.n_sheet + m.n_coil = m.n_total ∧
    |m.frac_helix + m.frac_sheet + m.frac_coil - 1| ≤ 1 / 1000000000 := by
  unfold parse_dssp_counts at h
  split at h
  · simp at h
  · rename_i hne
    have hpart : (dsspFold lines).n_helix + (dsspFold lines).n_sheet
        + (dsspFold lines).n_coil = (dsspFold lines).n_total :=
      dsspFold_partition lines initDsspState rfl
    injection h with hm
    subst hm
    refine ⟨hpart, ?_⟩
    have ht : ((dsspFold lines).n_total : ℚ) ≠ 0 := Nat.cast_ne_zero.mpr hne
    have hsum :
        ((dsspFold lines).n_helix : ℚ) / ((dsspFold lines).n_total : ℚ)
          + ((dsspFold lines).n_sheet : ℚ) / ((dsspFold lines).n_total : ℚ)
          + ((dsspFold lines).n_coil : ℚ) / ((dsspFold lines).n_total : ℚ) = 1 := by
      rw [div_add_div_same, div_add_div_same]
      rw [show ((dsspFold lines).n_helix : ℚ) + ((dsspFold lines).n_sheet : ℚ)
            + ((dsspFold lines).n_coil : ℚ) = ((dsspFold lines).n_total : ℚ) by
        exact_mod_cast congrArg (Nat.cast : Nat → ℚ) hpart]
      exact div_self ht
    show |((dsspFold lines).n_helix : ℚ) / ((dsspFold lines).n_total : ℚ)
          + ((dsspFold lines).n_sheet : ℚ) / ((dsspFold lines).n_total : ℚ)
          + ((dsspFold lines).n_coil : ℚ) / ((dsspFold lines).n_total : ℚ) - 1|
        ≤ 1 / 1000000000
    rw [hsum]
    norm_num

/-- C1 witness: the concrete example table parses and satisfies both parts. -/
theorem claim_C1_witness :
    exMetrics.n_helix + exMetrics.n_sheet + exMetrics.n_coil = exMetrics.n_total ∧
    |exMetrics.frac_helix + exMetrics.frac_sheet + exMetrics.frac_coil - 1|
      ≤ 1 / 1000000000 :=
  claim_C1 exDsspLines exMetrics (by with_unfolding_all rfl)

/-- A successful parse implies at least one residue row was counted. -/
theorem parse_ok_pos (ls : List String) (m : DsspMetrics)
    (h : parse_dssp_counts ls = Except.ok m) : 0 < m.n_total := by
  unfold parse_dssp_counts at h
  split at h
  · simp at h
  · rename_i hne
    injection h with hm
    subst hm
    exact Nat.pos_of_ne_zero hne

/-- C2 counterexample: a charge-table file with zero successfully parsed
rows is not excluded — both charge scripts still record a summary row for
it, with net charge `0.0` (and, in v3, atom count `0`). -/
theorem claim_C2_cex :
    sum_charge_for_file ["REMARK   generated by pdb2pqr"] = (0, 0) ∧
    v3Rows [("empty.pqr", ["REMARK   generated by pdb2pqr"])] = [("empty.pqr", 0)] ∧
    legacyRows [("empty.pqr", ["REMARK   generated by pdb2pqr"])] = [("empty.pqr", 0)] := by
  with_unfolding_all decide

/-- C2 amended: the secondary-structure parser returns a failure exactly
when zero rows were parsed, and the caller's record list only ever holds
entries with a positive row count; the charge-table scripts, by contrast,
emit one output row per input file unconditionally. -/
theorem claim_C2_amended (files : List (String × List String)) (ls : List String) :
    (parse_dssp_counts ls).isOk = decide (0 < (dsspFold ls).n_total) ∧
    ((dsspRecords files).all (fun r => decide (0 < r.2.n_total))) = true ∧
    (v3Rows files).map Prod.fst = files.map Prod.fst ∧
    (legacyRows files).map Prod.fst = files.map Prod.fst := by
  refine ⟨?_, ?_, ?_, ?_⟩
  · unfold parse_dssp_counts
    split
    · rename_i hz
      simp [hz, Except.isOk, Except.toBool]
    · rename_i hne
      simp [Except.isOk, Except.toBool, Nat.pos_of_ne_zero hne]
  · simp only [List.all_eq_true]
    intro r hr
    simp only [dsspRecords, List.mem_filterMap] at hr
    obtain ⟨f, _, hf⟩ := hr
    rcases hp : parse_dssp_counts f.2 with e | m
    · rw [hp] at hf; cases hf
    · rw [hp] at hf
      injection hf with hf'
      subst hf'
      simpa using parse_ok_pos f.2 m hp
  · simp [v3Rows]
  · simp [legacyRows]

/-- C3: the legacy fixed-column parser (charge at token index 9) on the
legacy-layout example line and the tolerant parser (charge at the
second-to-last token) on the tolerant-layout example line both extract
`-0.415`, so the two strategies agree on the two representations of this
record. -/
theorem claim_C3 :
    legacyFileCharge [exLegacyLine] = -415 / 1000 ∧
    sum_charge_for_file [exTolerantLine] = (1, -415 / 1000) ∧
    legacyFileCharge [exLegacyLine] = (sum_charge_for_file [exTolerantLine]).2 := by
  with_unfolding_all decide

/-- A short or header-like line leaves the state untouched (no partial read,
no padding). -/
theorem dsspStep_short (st : DsspState) (line : String)
    (h2 : pyStartsWith line "  #  RESIDUE" = false)
    (h3 : pyLen line < 50) : dsspStep st line = st := by
  simp only [dsspStep, h2, Bool.false_eq_true, if_false, h3, if_true]
  by_cases hin : st.in_table <;> simp [hin]

/-- A post-header non-sentinel line of length at least 50 is counted: the
total increments and its (possibly coerced) exposure value is appended. -/
theorem dsspStep_data (st : DsspState) (line : String)
    (h1 : st.in_table = true)
    (h2 : pyStartsWith line "  #  RESIDUE" = false)
    (h3 : 50 ≤ pyLen line) :
    (dsspStep st line).n_total = st.n_total + 1 ∧
    (dsspStep st line).asas = st.asas ++ [dsspAsa line] := by
  have h3' : ¬ pyLen line < 50 := Nat.not_lt.mpr h3
  simp only [dsspStep, h1, h2, Bool.false_eq_true, if_false, Bool.not_true, h3']
  split_ifs <;> simp

/-- C4: in fixed-width table mode an accepted data line whose exposure
field fails float conversion is still counted, contributing `0.0`; in the
delimited charge mode a record line whose charge token fails float
conversion is skipped entirely. -/
theorem claim_C4 (st : DsspState) (acc : Nat × ℚ) (line1 line2 : String)
    (h1 : st.in_table = true)
    (h2 : pyStartsWith line1 "  #  RESIDUE" = false)
    (h3 : 50 ≤ pyLen line1)
    (h4 : pyFloat? (pyStrip (pySlice line1 34 38)) = none)
    (h5 : is_pqr_line line2 = true)
    (h6 : pyFloat? (chargeTok line2) = none) :
    ((dsspStep st line1).n_total = st.n_total + 1 ∧
      (dsspStep st line1).asas = st.asas ++ [0]) ∧
    chargeStep acc line2 = acc := by
  refine ⟨?_, ?_⟩
  · have hd := dsspStep_data st line1 h1 h2 h3
    have ha : dsspAsa line1 = 0 := by
      simp [dsspAsa, h4]
    rw [ha] at hd
    exact hd
  · simp only [chargeStep, h5, Bool.not_true, Bool.false_eq_true, if_false, h6]
    split_ifs <;> simp

/-- C4 witness: concrete lines exercising both halves. -/
theorem claim_C4_witness :
    ((dsspStep exDsspState exBadAsaLine).n_total = exDsspState.n_total + 1 ∧
      (dsspStep exDsspState exBadAsaLine).asas = exDsspState.asas ++ [0]) ∧
    chargeStep (3, 5) exBadChargeLine = (3, 5) :=
  claim_C4 exDsspState (3, 5) exBadAsaLine exBadChargeLine
    (by with_unfolding_all rfl) (by with_unfolding_all rfl)
    (by with_unfolding_all decide) (by with_unfolding_all rfl)
    (by with_unfolding_all rfl) (by with_unfolding_all rfl)

/-- The tolerant per-line step in closed form: a line is counted exactly
under `v3CountedLine`. -/
theorem chargeStep_eq (acc : Nat × ℚ) (l : String) :
    chargeStep acc l =
      if v3CountedLine l then (acc.1 + 1, acc.2 + (pyFloat? (chargeTok l)).getD 0)
      else acc := by
  simp only [chargeStep, v3CountedLine]
  by_cases hp : is_pqr_line l
  · by_cases h8 : (pySplit l).length < 8
    · have hn8 : ¬ (8 ≤ (pySplit l).length) := by omega
      simp [hp, h8, hn8]
    · have h8' : 8 ≤ (pySplit l).length := by omega
      simp only [hp, Bool.not_true, Bool.false_eq_true, if_false, h8, if_true]
      split
      · rename_i heq
        simp [heq, hp, h8', h8]
      · rename_i c heq
        simp [heq, hp, h8', h8]
  · simp [hp]

/-- Folding the counted-line characterization over a whole file. -/
theorem chargeFold_spec (lines : List String) : ∀ n : Nat, ∀ q : ℚ,
    lines.foldl chargeStep (n, q)
      = (n + (lines.filter v3CountedLine).length,
         q + ((lines.filter v3CountedLine).map
                (fun l => (pyFloat? (chargeTok l)).getD 0)).sum) := by
  induction lines with
  | nil => intro n q; simp
  | cons l ls ih =>
    intro n q
    rw [List.foldl_cons, chargeStep_eq]
    by_cases hc : v3CountedLine l
    · simp only [hc, if_true, ih, List.filter_cons_of_pos hc, List.length_cons,
        List.map_cons, List.sum_cons]
      rw [Prod.mk.injEq]
      exact ⟨by omega, by ring⟩
    · simp only [hc, Bool.false_eq_true, if_false, ih, List.filter_cons_of_neg]
      rw [List.filter_cons_of_neg (by simp [hc])]

/-- C5 counterexample: `"ATOM 1.0 2.0"` begins with a record prefix and its
second-to-last token parses as a number, yet `sum_charge_for_file` does not
count it (it has fewer than 8 tokens). -/
theorem claim_C5_cex :
    (sum_charge_for_file [exShortChargeLine]).1 = 0 ∧
    prefixParseableCount [exShortChargeLine] = 1 ∧
    (sum_charge_for_file [exShortChargeLine]).1 ≠ prefixParseableCount [exShortChargeLine] := by
  with_unfolding_all decide

/-- C5 amended: `atom_count` equals the number of lines that begin with a
record-type prefix, have at least 8 whitespace tokens, and whose
second-to-last token parses as a number; exactly those lines contribute
their parsed charge to the net-charge sum. -/
theorem claim_C5_amended (lines : List String) :
    (sum_charge_for_file lines).1 = (lines.filter v3CountedLine).length ∧
    (sum_charge_for_file lines).2
      = ((lines.filter v3CountedLine).map
           (fun l => (pyFloat? (chargeTok l)).getD 0)).sum := by
  unfold sum_charge_for_file
  rw [chargeFold_spec lines 0 0]
  simp

/-- The resolver loop finds the unique marked member wherever it sits. -/
theorem findAF_unique (p : String)
    (hmark : pyContains (basename p) "__AF-" = true) :
    ∀ l : List String, p ∈ l →
      (∀ q ∈ l, q ≠ p → pyContains (basename q) "__AF-" = false) →
      findAF l = some p := by
  intro l
  induction l with
  | nil => intro hmem _; cases hmem
  | cons a r ih =>
    intro hmem huniq
    by_cases ha : pyContains (basename a) "__AF-" = true
    · have hap : a = p := by
        by_contra hne
        have := huniq a (List.mem_cons_self a r) hne
        rw [this] at ha
        cases ha
      subst hap
      simp [findAF, ha]
    · have hne : p ≠ a := fun h => ha (h ▸ hmark)
      have hpr : p ∈ r := by
        rcases List.mem_cons.mp hmem with h | h
        · exact absurd h hne
        · exact h
      have ih' := ih hpr (fun q hq hqp => huniq q (List.mem_cons_of_mem a hq) hqp)
      simp [findAF, ha, ih']

/-- C6: in a group containing exactly one file whose basename carries the
`__AF-` marker, the resolver selects that file, whatever the order of the
group. -/
theorem claim_C6 (l : List String) (p : String)
    (hmem : p ∈ l)
    (hmark : pyContains (basename p) "__AF-" = true)
    (huniq : ∀ q ∈ l, q ≠ p → pyContains (basename q) "__AF-" = false) :
    prefer_alphaFold l = some p := by
  have hfind := findAF_unique p hmark l hmem huniq
  simp [prefer_alphaFold, hfind]

/-- C6 witness: the marked file is selected from the middle of the group. -/
theorem claim_C6_witness : prefer_alphaFold exGroup = some "NP_1__AF-model.pdb" :=
  claim_C6 exGroup "NP_1__AF-model.pdb" (by decide) (by decide) (by decide)

/-- A successful association-list lookup returns one of the stored
values. -/
theorem lookup_mem_values (d : List (String × String)) (k v : String)
    (h : d.lookup k = some v) : v ∈ d.map Prod.snd := by
  induction d with
  | nil => cases h
  | cons a t ih =>
    rw [List.lookup_cons] at h
    split at h
    · injection h with h'
      subst h'
      simp
    · simpa using Or.inr (ih h)

/-- C7 counterexample: when the label table happens to contain an entry
keyed by the literal `"unknown"`, an entity key absent from the mapping
resolves through the sentinel abbreviation and picks up that entry's
status instead of `"unknown"` (dssp_batch_summary.py join). -/
theorem claim_C7_cex :
    joinStatus [] [("unknown", "aquatic")] "NP_000001" = "aquatic" ∧
    joinStatus [] [("unknown", "aquatic")] "NP_000001" ≠ "unknown" := by
  decide

/-- C7 amended: for every pair of tables and every key — in the dssp join,
a key absent from the mapping resolves to `"unknown"` provided the label
table has no entry keyed `"unknown"`, and a present key whose abbreviation
is absent from the label table resolves to `"unknown"`; the
label_and_plot_net_charges.py join satisfies both miss-cases with no
proviso at all (its missing first hop propagates as a missing value, not
as the string sentinel); and the dssp join always yields either a status
stored in the label table or `"unknown"`.  Each conjunct carries exactly
its own hypotheses. -/
theorem claim_C7_amended (ref2abbr abbr2status : List (String × String)) (k : String) :
    (ref2abbr.lookup k = none → abbr2status.lookup "unknown" = none →
      joinStatus ref2abbr abbr2status k = "unknown") ∧
    (∀ a : String, ref2abbr.lookup k = some a → abbr2status.lookup a = none →
      joinStatus ref2abbr abbr2status k = "unknown") ∧
    (ref2abbr.lookup k = none → resolveStatus ref2abbr abbr2status k = "unknown") ∧
    (∀ a : String, ref2abbr.lookup k = some a → abbr2status.lookup a = none →
      resolveStatus ref2abbr abbr2status k = "unknown") ∧
    (joinStatus ref2abbr abbr2status k = "unknown" ∨
      joinStatus ref2abbr abbr2status k ∈ abbr2status.map Prod.snd) := by
  refine ⟨?_, ?_, ?_, ?_, ?_⟩
  · intro h1 hu
    simp [joinStatus, dictGet, h1, hu]
  · intro a h2 h3
    simp [joinStatus, dictGet, h2, h3]
  · intro h1
    simp [resolveStatus, h1]
  · intro a h2 h3
    simp [resolveStatus, h2, h3]
  · cases hv : abbr2status.lookup ((ref2abbr.lookup k).getD "unknown") with
    | none => left; simp [joinStatus, dictGet, hv]
    | some v =>
      right
      have hjv : joinStatus ref2abbr abbr2status k = v := by simp [joinStatus, dictGet, hv]
      rw [hjv]
      exact lookup_mem_values _ _ _ hv

/-- C7 witness: on concrete consistent tables, a missing key and a key
whose abbreviation is unlabeled both resolve to `"unknown"`, in both
scripts' joins; every inner hypothesis is discharged at these inputs. -/
theorem claim_C7_witness :
    joinStatus exRef2Abbr exAbbr2Status "NP_1" = "unknown" ∧
    joinStatus exRef2Abbr exAbbr2Status "NP_9" = "unknown" ∧
    resolveStatus exRef2Abbr exAbbr2Status "NP_1" = "unknown" ∧
    resolveStatus exRef2Abbr exAbbr2Status "NP_9" = "unknown" := by
  refine ⟨?_, ?_, ?_, ?_⟩
  · exact (claim_C7_amended exRef2Abbr exAbbr2Status "NP_1").1 (by decide) (by decide)
  · exact (claim_C7_amended exRef2Abbr exAbbr2Status "NP_9").2.1 "Ggo" (by decide) (by decide)
  · exact (claim_C7_amended exRef2Abbr exAbbr2Status "NP_1").2.2.1 (by decide)
  · exact (claim_C7_amended exRef2Abbr exAbbr2Status "NP_9").2.2.2.1 "Ggo" (by decide) (by decide)

/-- Lookup distributes over append, preferring the left list. -/
theorem lookup_append_or (l₁ l₂ : List (String × String)) (k : String) :
    (l₁ ++ l₂).lookup k = (l₁.lookup k).or (l₂.lookup k) := by
  induction l₁ with
  | nil => simp
  | cons a t ih =>
    rw [List.cons_append, List.lookup_cons, List.lookup_cons]
    split
    · rfl
    · exact ih

/-- Head case of association-list lookup, phrased with propositional
equality. -/
theorem lookup_cons_ite (x v : String) (t : List (String × String)) (k : String) :
    List.lookup k ((x, v) :: t) = if k = x then some v else List.lookup k t := by
  by_cases h : k = x
  · simp [List.lookup, h]
  · have hb : (k == x) = false := by
      cases hkx : k == x
      · rfl
      · exact absurd (eq_of_beq hkx) h
    simp [List.lookup, hb, h]

/-- Folding `setdefault` never overwrites: the result of a lookup is the
previously stored value if any, else the first value supplied for the
key. -/
theorem lookup_foldl_setdefault (ps : List (String × String)) :
    ∀ d : List (String × String), ∀ k : String,
      ((ps.foldl (fun d p => setdefault d p.1 p.2) d).lookup k)
        = (d.lookup k).or (ps.lookup k) := by
  induction ps with
  | nil =>
    intro d k
    rw [List.foldl_nil]
    cases hdk : d.lookup k <;> simp [hdk]
  | cons p t ih =>
    intro d k
    rcases p with ⟨pk, pv⟩
    simp only [List.foldl_cons]
    cases hd : List.lookup pk d with
    | some w =>
      have hset : setdefault d pk pv = d := by simp [setdefault, hd]
      rw [hset, ih, lookup_cons_ite]
      by_cases hk : k = pk
      · subst hk
        rw [hd]
        cases List.lookup k t <;> rfl
      · rw [if_neg hk]
    | none =>
      have hset : setdefault d pk pv = d ++ [(pk, pv)] := by simp [setdefault, hd]
      rw [hset, ih, lookup_append_or, lookup_cons_ite pk pv t k, lookup_cons_ite pk pv [] k]
      by_cases hk : k = pk
      · subst hk
        rw [hd]
        simp
      · rw [if_neg hk, if_neg hk]
        rw [show List.lookup k ([] : List (String × String)) = none from rfl]
        cases hdk : d.lookup k <;> simp [hdk]

/-- The per-line fold over raw lines equals the fold over the successfully
parsed `(key, value)` pairs. -/
theorem load_foldl_filterMap (lines : List String) :
    ∀ d : List (String × String),
      lines.foldl (fun d line =>
          match parseMapLine line with
          | some p => setdefault d p.1 p.2
          | none => d) d
        = (lines.filterMap parseMapLine).foldl (fun d p => setdefault d p.1 p.2) d := by
  induction lines with
  | nil => intro d; simp
  | cons l ls ih =>
    intro d
    cases h : parseMapLine l with
    | none => simp [h, ih]
    | some p => simp [h, ih]

/-- C8: the mapping loader implements first-seen-wins — looking up any key
in the loaded dict returns the value from the first line of the file that
successfully parses to that key (and later duplicate lines neither change
the mapping nor fail). -/
theorem claim_C8 (lines : List String) (k : String) :
    (load_refseq_to_abbr lines).lookup k = (lines.filterMap parseMapLine).lookup k := by
  unfold load_refseq_to_abbr
  rw [load_foldl_filterMap lines [], lookup_foldl_setdefault (lines.filterMap parseMapLine) [] k]
  rfl

/-- C9 counterexample: a post-header line of length 38 — long enough for
the structural-code byte at offset 16 and the exposure field at bytes
34–38 — is nevertheless rejected, so the whole file parses to zero
residues. -/
theorem claim_C9_cex :
    pyLen exLen38Line = 38 ∧
    (dsspFold [exHdrLine, exLen38Line]).n_total = 0 ∧
    parse_dssp_counts [exHdrLine, exLen38Line] = Except.error "No residues parsed" := by
  with_unfolding_all decide

/-- C9 amended: in fixed-width mode the rejection threshold is 50
characters, not the 38 needed to contain the referenced fields: a
non-sentinel post-header line shorter than 50 characters is rejected whole
(the state is unchanged — nothing partially read or padded), and every
non-sentinel post-header line of at least 50 characters is parsed as a
data row (the total increments and its exposure value is appended). -/
theorem claim_C9_amended (st : DsspState) (line : String)
    (h1 : st.in_table = true)
    (h2 : pyStartsWith line "  #  RESIDUE" = false) :
    (pyLen line < 50 → dsspStep st line = st) ∧
    (50 ≤ pyLen line →
      (dsspStep st line).n_total = st.n_total + 1 ∧
      (dsspStep st line).asas = st.asas ++ [dsspAsa line]) := by
  constructor
  · intro h3
    exact dsspStep_short st line h2 h3
  · intro h3
    exact dsspStep_data st line h1 h2 h3

/-- C9 witness: the 38-character line is dropped with the state intact,
and a 50-character line is counted. -/
theorem claim_C9_witness :
    dsspStep exDsspState exLen38Line = exDsspState ∧
    (dsspStep exDsspState exBadAsaLine).n_total = exDsspState.n_total + 1 :=
  ⟨(claim_C9_amended exDsspState exLen38Line (by with_unfolding_all rfl)
      (by with_unfolding_all rfl)).1 (by with_unfolding_all decide),
   ((claim_C9_amended exDsspState exBadAsaLine (by with_unfolding_all rfl)
      (by with_unfolding_all rfl)).2 (by with_unfolding_all decide)).1⟩

/-- All the character-level facts about a decimal digit that the
serialization round trip needs. -/
theorem digitChar_spec (r : Nat) :
    (digitChar r).isDigit = true ∧ (digitChar r).isWhitespace = false ∧
    digitChar r ≠ '+' ∧ digitChar r ≠ '-' ∧ digitChar r ≠ '.' ∧
    digitChar r ≠ '=' ∧ digitChar r ≠ '\t' := by
  have h9 : ('9' : Char).isDigit = true ∧ ('9' : Char).isWhitespace = false ∧
      ('9' : Char) ≠ '+' ∧ ('9' : Char) ≠ '-' ∧ ('9' : Char) ≠ '.' ∧
      ('9' : Char) ≠ '=' ∧ ('9' : Char) ≠ '\t' := by decide
  rcases r with _|_|_|_|_|_|_|_|_|r
  · decide
  · decide
  · decide
  · decide
  · decide
  · decide
  · decide
  · decide
  · decide
  · exact h9

/-- Every character produced by the fuel-driven digit expansion is a
decimal digit character. -/
theorem natDigitsAux_digits (fuel : Nat) :
    ∀ n : Nat, ∀ c ∈ natDigitsAux fuel n,
      c.isDigit = true ∧ c.isWhitespace = false ∧ c ≠ '+' ∧ c ≠ '-' ∧ c ≠ '.' ∧
      c ≠ '=' ∧ c ≠ '\t' := by
  induction fuel with
  | zero =>
    intro n c hc
    simp [natDigitsAux] at hc
  | succ f ih =>
    intro n c hc
    by_cases hn : n = 0
    · simp [natDigitsAux, hn] at hc
    · simp only [natDigitsAux, hn, if_false] at hc
      rcases List.mem_append.mp hc with hc | hc
      · exact ih (n / 10) c hc
      · have hc' : c = digitChar (n % 10) := by simpa using hc
        subst hc'
        exact digitChar_spec _

/-- Character facts for `natDigits`. -/
theorem natDigits_digits (n : Nat) :
    ∀ c ∈ natDigits n,
      c.isDigit = true ∧ c.isWhitespace = false ∧ c ≠ '+' ∧ c ≠ '-' ∧ c ≠ '.' ∧
      c ≠ '=' ∧ c ≠ '\t' := by
  intro c hc
  by_cases hn : n = 0
  · simp [natDigits, hn] at hc
    subst hc
    exact digitChar_spec 0
  · simp only [natDigits, hn, if_false] at hc
    exact natDigitsAux_digits _ _ c hc

/-- `natDigits` is never empty. -/
theorem natDigits_ne_nil (n : Nat) : natDigits n ≠ [] := by
  by_cases hn : n = 0
  · simp [natDigits, hn]
  · simp [natDigits, natDigitsAux, hn]

/-- Character facts for the three padded fractional digits. -/
theorem pad3_digits (m : Nat) :
    ∀ c ∈ pad3 m,
      c.isDigit = true ∧ c.isWhitespace = false ∧ c ≠ '+' ∧ c ≠ '-' ∧ c ≠ '.' ∧
      c ≠ '=' ∧ c ≠ '\t' := by
  intro c hc
  simp [pad3] at hc
  rcases hc with hc | hc | hc <;> (subst hc; exact digitChar_spec _)

/-- A list of digits is consumed whole. -/
theorem takeDigits_all (l : List Char) (h : ∀ c ∈ l, c.isDigit = true) :
    takeDigits l = (l, []) := by
  induction l with
  | nil => rfl
  | cons a t ih =>
    have ha := h a (by simp)
    simp [takeDigits, ha, ih (fun c hc => h c (by simp [hc]))]

/-- Digit consumption stops exactly at the first non-digit. -/
theorem takeDigits_append_stop (l : List Char) (c : Char) (r : List Char)
    (hl : ∀ x ∈ l, x.isDigit = true) (hc : c.isDigit = false) :
    takeDigits (l ++ c :: r) = (l, c :: r) := by
  induction l with
  | nil => simp [takeDigits, hc]
  | cons a t ih =>
    have ha := hl a (by simp)
    simp [takeDigits, ha, ih (fun x hx => hl x (by simp [hx]))]

/-- A head that is neither sign consumes nothing. -/
theorem parseSign_cons_other (c : Char) (l : List Char) (h1 : c ≠ '+') (h2 : c ≠ '-') :
    parseSign (c :: l) = (false, c :: l) := by
  simp [parseSign, h1, h2]

/-- `dropWhile` is the identity when the head already fails the
predicate. -/
theorem dropWhile_eq_self_of_head (p : Char → Bool) (l : List Char)
    (h : ∀ c, l.head? = some c → p c = false) : l.dropWhile p = l := by
  cases l with
  | nil => rfl
  | cons a t => simp [List.dropWhile_cons, h a rfl]

/-- Stripping changes nothing when both ends are non-whitespace. -/
theorem pyStripChars_eq_self (l : List Char)
    (h1 : ∀ c, l.head? = some c → c.isWhitespace = false)
    (h2 : ∀ c, l.reverse.head? = some c → c.isWhitespace = false) :
    pyStripChars l = l := by
  unfold pyStripChars
  rw [dropWhile_eq_self_of_head _ _ h1, dropWhile_eq_self_of_head _ _ h2,
    List.reverse_reverse]

/-- `takeWhile`/`dropWhile` split a list at the first failing element. -/
theorem takeWhile_append_stop (p : Char → Bool) (l : List Char) (c : Char) (r : List Char)
    (hl : ∀ x ∈ l, p x = true) (hc : p c = false) :
    (l ++ c :: r).takeWhile p = l ∧ (l ++ c :: r).dropWhile p = c :: r := by
  induction l with
  | nil => constructor <;> simp [List.takeWhile_cons, List.dropWhile_cons, hc]
  | cons a t ih =>
    have ha := hl a (by simp)
    have iht := ih (fun x hx => hl x (by simp [hx]))
    constructor
    · simp [List.takeWhile_cons, ha, iht.1]
    · simp [List.dropWhile_cons, ha, iht.2]

/-- A list is a prefix of itself followed by anything. -/
theorem isPrefixOf_append_self (l t : List Char) : l.isPrefixOf (l ++ t) = true := by
  induction l with
  | nil => cases t <;> rfl
  | cons a l ih => simp [List.cons_append, List.isPrefixOf, ih]

/-- The decimal grammar accepts any `[sign] digits . digits` string. -/
theorem pyFloatChars?_shape (S A P : List Char)
    (hS : S = [] ∨ S = ['-'])
    (hA : ∀ c ∈ A, c.isDigit = true)
    (hAp : ∀ c ∈ A, c ≠ '+') (hAm : ∀ c ∈ A, c ≠ '-')
    (hAne : A ≠ [])
    (hP : ∀ c ∈ P, c.isDigit = true) :
    (pyFloatChars? (S ++ A ++ '.' :: P)).isSome = true := by
  obtain ⟨a, A', rfl⟩ : ∃ a A', A = a :: A' := by
    cases A with
    | nil => exact absurd rfl hAne
    | cons a A' => exact ⟨a, A', rfl⟩
  have hdot : ('.' : Char).isDigit = false := by decide
  have htake : takeDigits ((a :: A') ++ '.' :: P) = (a :: A', '.' :: P) :=
    takeDigits_append_stop _ _ _ hA hdot
  have htP : takeDigits P = (P, []) := takeDigits_all P hP
  rcases hS with rfl | rfl
  · have hsign : parseSign ((a :: A') ++ '.' :: P) = (false, (a :: A') ++ '.' :: P) := by
      rw [List.cons_append]
      exact parseSign_cons_other a _ (hAp a (by simp)) (hAm a (by simp))
    rw [List.nil_append]
    simp only [pyFloatChars?, hsign, htake, htP]
    simp
  · have hsign : parseSign (['-'] ++ (a :: A') ++ '.' :: P)
        = (true, (a :: A') ++ '.' :: P) := by
      simp [parseSign]
    simp only [pyFloatChars?, hsign, htake, htP]
    simp

/-- Decomposition of the formatted charge into sign, integer digits and
three fractional digits. -/
theorem fmt3_shape (q : ℚ) : ∃ S A m,
    (S = [] ∨ S = ['-']) ∧
    (∀ c ∈ A, c.isDigit = true ∧ c.isWhitespace = false ∧ c ≠ '+' ∧ c ≠ '-' ∧
      c ≠ '.' ∧ c ≠ '=' ∧ c ≠ '\t') ∧
    A ≠ [] ∧
    (fmt3 q).data = S ++ A ++ '.' :: pad3 m := by
  refine ⟨if round (q * 1000) < 0 then ['-'] else [],
    natDigits ((round (q * 1000)).natAbs / 1000),
    (round (q * 1000)).natAbs % 1000, ?_, ?_, ?_, ?_⟩
  · split
    · right; rfl
    · left; rfl
  · exact natDigits_digits _
  · exact natDigits_ne_nil _
  · rfl

/-- Any line ending in a formatted charge ends in a digit, hence in a
non-whitespace character. -/
theorem fmt3_line_reverse_head (q : ℚ) (L : List Char) :
    ∀ c, (L ++ (fmt3 q).data).reverse.head? = some c → c.isWhitespace = false := by
  obtain ⟨S, A, m, _, _, _, hdata⟩ := fmt3_shape q
  intro c hc
  rw [hdata] at hc
  simp [pad3, List.reverse_append] at hc
  subst hc
  exact (digitChar_spec _).2.1

/-- The formatted charge parses as a float. -/
theorem pyFloat?_fmt3 (q : ℚ) : (pyFloat? (fmt3 q)).isSome = true := by
  obtain ⟨S, A, m, hS, hA, hAne, hdata⟩ := fmt3_shape q
  unfold pyFloat?
  rw [hdata]
  have hstrip : pyStripChars (S ++ A ++ '.' :: pad3 m) = S ++ A ++ '.' :: pad3 m := by
    apply pyStripChars_eq_self
    · intro c hc
      rcases hS with rfl | rfl
      · obtain ⟨a, A', rfl⟩ : ∃ a A', A = a :: A' := by
          cases A with
          | nil => exact absurd rfl hAne
          | cons a A' => exact ⟨a, A', rfl⟩
        simp only [List.nil_append, List.cons_append, List.head?_cons] at hc
        injection hc with hc
        exact hc ▸ (hA a (by simp)).2.1
      · simp only [List.cons_append, List.nil_append, List.head?_cons] at hc
        injection hc with hc
        exact hc ▸ (by decide : ('-' : Char).isWhitespace = false)
    · have := fmt3_line_reverse_head q []
      rw [hdata] at this
      simpa using this
  rw [hstrip]
  exact pyFloatChars?_shape S A (pad3 m) hS (fun c hc => (hA c hc).1)
    (fun c hc => (hA c hc).2.2.1) (fun c hc => (hA c hc).2.2.2.1) hAne
    (fun c hc => (pad3_digits m c hc).1)

/-- A written row parses back with its filename intact. -/
theorem parse_written_line (f : String) (q : ℚ) (hf : goodName f = true) :
    ∃ z : ℚ, parseChargesLine (f ++ "\tNetCharge=" ++ fmt3 q) = some (f, z) := by
  simp only [goodName, Bool.and_eq_true, Bool.not_eq_true', List.all_eq_true] at hf
  obtain ⟨⟨hne, hhead⟩, hall⟩ := hf
  obtain ⟨c0, ftail, hfd⟩ : ∃ c0 ftail, f.data = c0 :: ftail := by
    cases hfd : f.data with
    | nil => rw [hfd] at hne; simp [List.isEmpty] at hne
    | cons c0 t => exact ⟨c0, t, rfl⟩
  have htab : ∀ x ∈ f.data, x ≠ '\t' := by
    intro x hx
    have := hall x hx
    simp only [Bool.and_eq_true, Bool.not_eq_true', decide_eq_false_iff_not] at this
    exact this.1.1
  have hlit : ("\tNetCharge=" : String).data = '\t' :: ("NetCharge=" : String).data := rfl
  have hdata : (f ++ "\tNetCharge=" ++ fmt3 q).data
      = f.data ++ '\t' :: (("NetCharge=" : String).data ++ (fmt3 q).data) := by
    simp [String.data_append, hlit, List.append_assoc]
  have hstrip : pyStripChars ((f ++ "\tNetCharge=" ++ fmt3 q).data)
      = (f ++ "\tNetCharge=" ++ fmt3 q).data := by
    apply pyStripChars_eq_self
    · intro c hc
      rw [hdata, hfd] at hc
      simp only [List.cons_append, List.head?_cons] at hc
      injection hc with hc
      have hh : c0.isWhitespace = false := by
        rw [hfd] at hhead
        exact hhead
      exact hc ▸ hh
    · intro c hc
      apply fmt3_line_reverse_head q (f.data ++ '\t' :: ("NetCharge=" : String).data) c
      rw [hdata] at hc
      simpa [List.append_assoc, List.cons_append] using hc
  have hstr : pyStrip (f ++ "\tNetCharge=" ++ fmt3 q) = f ++ "\tNetCharge=" ++ fmt3 q := by
    show (⟨pyStripChars (f ++ "\tNetCharge=" ++ fmt3 q).data⟩ : String)
        = f ++ "\tNetCharge=" ++ fmt3 q
    rw [hstrip]
  have hne' : ¬ (f ++ "\tNetCharge=" ++ fmt3 q) = "" := by
    intro h
    have hd := congrArg String.data h
    rw [hdata, hfd] at hd
    simp at hd
  have hsplit := takeWhile_append_stop (fun c => decide (c ≠ '\t')) f.data '\t'
    (("NetCharge=" : String).data ++ (fmt3 q).data)
    (fun x hx => by simpa using htab x hx) (by simp)
  have hsplit1 : splitTab1 (f ++ "\tNetCharge=" ++ fmt3 q)
      = some (f, ⟨("NetCharge=" : String).data ++ (fmt3 q).data⟩) := by
    unfold splitTab1
    rw [hdata, hsplit.1, hsplit.2]
    simp
  have hpre : pyStartsWith (⟨("NetCharge=" : String).data ++ (fmt3 q).data⟩ : String)
      "NetCharge=" = true :=
    isPrefixOf_append_self _ _
  have hlit2 : ("NetCharge=" : String).data = ("NetCharge" : String).data ++ ['='] := rfl
  have hsplit2 := takeWhile_append_stop (fun c => decide (c ≠ '=')) ("NetCharge" : String).data
    '=' ((fmt3 q).data) (by decide) (by simp)
  have haeq : afterEq (⟨("NetCharge=" : String).data ++ (fmt3 q).data⟩ : String) = fmt3 q := by
    unfold afterEq
    rw [show ((⟨("NetCharge=" : String).data ++ (fmt3 q).data⟩ : String)).data
          = ("NetCharge" : String).data ++ '=' :: (fmt3 q).data from by
        simp [hlit2, List.append_assoc]]
    rw [hsplit2.2]
    show (⟨(fmt3 q).data⟩ : String) = fmt3 q
    rfl
  obtain ⟨z, hz⟩ := Option.isSome_iff_exists.mp (pyFloat?_fmt3 q)
  refine ⟨z, ?_⟩
  unfold parseChargesLine
  rw [hstr, if_neg hne', hsplit1]
  simp only [hpre, Bool.not_true, Bool.false_eq_true, if_false, haeq, hz]

/-- Reading back a written table preserves the filename column exactly. -/
theorem read_write_fst (rows : List (String × ℚ))
    (hf : ∀ r ∈ rows, goodName r.1 = true) :
    (read_charges_table (writeChargesTable rows)).map Prod.fst = rows.map Prod.fst := by
  induction rows with
  | nil => rfl
  | cons r t ih =>
    obtain ⟨z, hz⟩ := parse_written_line r.1 r.2 (hf r (by simp))
    have iht := ih (fun x hx => hf x (by simp [hx]))
    simp only [writeChargesTable, read_charges_table, List.map_cons,
      List.filterMap_cons, hz]
    simp only [writeChargesTable, read_charges_table] at iht
    rw [iht]

/-- C10: writing a per-entity charge table and re-reading it with the
pipeline's reader reproduces the same filenames in order, hence the same
entity keys and the same resolved status labels, for any rows whose
filenames are of the well-formed shape the pipeline produces. -/
theorem claim_C10 (rows : List (String × ℚ))
    (ref2abbr abbr2status : List (String × String))
    (hf : ∀ r ∈ rows, goodName r.1 = true) :
    (read_charges_table (writeChargesTable rows)).map Prod.fst = rows.map Prod.fst ∧
    (read_charges_table (writeChargesTable rows)).map (fun r => entityKey r.1)
      = rows.map (fun r => entityKey r.1) ∧
    (read_charges_table (writeChargesTable rows)).map
        (fun r => resolveStatus ref2abbr abbr2status (entityKey r.1))
      = rows.map (fun r => resolveStatus ref2abbr abbr2status (entityKey r.1)) := by
  have hfst := read_write_fst rows hf
  refine ⟨hfst, ?_, ?_⟩
  · rw [show (fun r : String × ℚ => entityKey r.1) = entityKey ∘ Prod.fst from rfl,
      ← List.map_map, ← List.map_map, hfst]
  · rw [show (fun r : String × ℚ => resolveStatus ref2abbr abbr2status (entityKey r.1))
        = (fun k => resolveStatus ref2abbr abbr2status (entityKey k)) ∘ Prod.fst from rfl,
      ← List.map_map, ← List.map_map, hfst]

/-- C10 witness: a concrete two-row table round-trips. -/
theorem claim_C10_witness :
    (read_charges_table (writeChargesTable exChargeRows)).map Prod.fst
      = exChargeRows.map Prod.fst ∧
    (read_charges_table (writeChargesTable exChargeRows)).map (fun r => entityKey r.1)
      = exChargeRows.map (fun r => entityKey r.1) ∧
    (read_charges_table (writeChargesTable exChargeRows)).map
        (fun r => resolveStatus exRef2Abbr exAbbr2Status (entityKey r.1))
      = exChargeRows.map (fun r => resolveStatus exRef2Abbr exAbbr2Status (entityKey r.1)) :=
  claim_C10 exChargeRows exRef2Abbr exAbbr2Status (by with_unfolding_all decide)

end LabFiles
